import Mathlib

/-!
Shallow embedding of `src/grimoire/src/lib.rs` (a LibAFL-based fuzzbench
fuzzer) together with models of the library behaviours the wiring relies on.
Definitions translated directly from the source keep the source's names where
Lean allows it; behaviour implemented in the external `libafl` crate (not part
of this repository's sources) is modelled from the specification and marked
`Modelled from the spec:` in its doc comment.
-/

namespace Grimoire

/-- Exit kinds an in-process execution can report (libafl `ExitKind`). -/
inductive ExitKind
  | Ok
  | Crash
  | Timeout
  deriving DecidableEq, Repr

/-! ## Timeouts (libafl_main, lines 83–89 and 154–160; fuzz, lines 340–348) -/

/-- Default of the `--timeout` command-line argument, in milliseconds
(`.default_value("12000")`, line 88). -/
def default_timeout_ms : Nat := 12000

/-- The `--timeout` argument as resolved by clap: the user-provided value when
present, otherwise the default (lines 83–89, 154–160). -/
def resolved_timeout_ms (cli : Option Nat) : Nat :=
  cli.getD default_timeout_ms

/-- Timeout handed to the executor wrapped by the `TracingStage`
(`timeout * 10`, line 347). -/
def tracing_timeout_ms (timeoutMs : Nat) : Nat := timeoutMs * 10

/-! ## Testcase replay mode (`run_testcases`, lines 165–192) -/

/-- Byte preparation in `run_testcases` (lines 182–186): the file's bytes are
copied, and `if *bytes.last().unwrap() != 0 { bytes.push(0); }`.  On an empty
file `last()` is `None` and `unwrap()` panics, modelled as `none`. -/
def prepare_testcase (bytes : List Nat) : Option (List Nat) :=
  match bytes.getLast? with
  | none => none
  | some b => some (if b ≠ 0 then bytes ++ [0] else bytes)

/-! ## Harnesses (fuzz, lines 300–320 and 332–337) -/

/-- Outcome of invoking `libfuzzer_test_one_input` on the target: either the
target function returns normally, or it faults, which kills the whole process
in-line (no value is ever produced by the harness in that case). -/
inductive TargetOutcome
  | Returns
  | ProcessDeath
  deriving DecidableEq, Repr

/-- The fuzzing harness (lines 300–320): runs the target on the input's bytes
and, whenever the call returns, yields `ExitKind::Ok`.  A faulting target
terminates the process, so no exit kind is produced in-line (`none`). -/
def harness (target : List Nat → TargetOutcome) (input : List Nat) :
    Option ExitKind :=
  match target input with
  | .Returns => some ExitKind.Ok
  | .ProcessDeath => none

/-- The tracing harness (lines 332–337): identical control flow to `harness`,
executed under the cmplog observer. -/
def tracing_harness (target : List Nat → TargetOutcome) (input : List Nat) :
    Option ExitKind :=
  match target input with
  | .Returns => some ExitKind.Ok
  | .ProcessDeath => none

/-! ## Restarting launch and state construction (fuzz, lines 222–273) -/

/-- The global fuzz state as far as its construction at lines 257–273 is
observable: the RNG seed handed to `StdRand::with_seed`, and the two corpora. -/
structure FuzzState where
  rngSeed : Nat
  workingCorpus : List (List Nat)
  objectiveCorpus : List (List Nat)
  deriving DecidableEq, Repr

/-- Result of `SimpleRestartingEventManager::launch` as matched at lines
222–234: success carries an optional prior state snapshot; `Error::ShuttingDown`
and any other error are the two failure arms. -/
inductive LaunchOutcome
  | ok (snapshot : Option FuzzState)
  | shuttingDown
  | err
  deriving DecidableEq, Repr

/-- What `fuzz` does with the launch result before entering the loop:
continue towards the fuzz loop with some state, return `Ok(())` cleanly, or
panic (lines 226–233). -/
inductive SetupResult
  | enterLoop (st : FuzzState)
  | cleanReturn
  | panicked
  deriving DecidableEq, Repr

/-- Fresh state built at lines 258–273: RNG seeded from the current time
(`StdRand::with_seed(current_nanos())`), an empty `InMemoryOnDiskCorpus` for
the working corpus and an empty `OnDiskCorpus` for objectives. -/
def fresh_state (now : Nat) : FuzzState :=
  { rngSeed := now, workingCorpus := [], objectiveCorpus := [] }

/-- The launch/state-selection logic of `fuzz` (lines 222–273): match on the
launch result, return cleanly on `ShuttingDown`, panic on other errors, and
otherwise use `state.unwrap_or_else(|| StdState::new(...))`. -/
def fuzz_setup (now : Nat) (launch : LaunchOutcome) : SetupResult :=
  match launch with
  | .ok snapshot => .enterLoop (snapshot.getD (fresh_state now))
  | .shuttingDown => .cleanReturn
  | .err => .panicked

/-! ## Initial seed loading (fuzz, lines 357–366) -/

/-- How `fuzz` leaves the seed-loading block at lines 357–366, and what the
surrounding process-level control flow does (libafl_main lines 147–150,
162; fuzz line 400). -/
inductive ProcessOutcome
  | enterFuzzLoop
  | exitWithCode (code : Nat)
  deriving DecidableEq, Repr

/-- The seed-loading block (lines 357–366): only when the corpus is empty is
`load_initial_inputs` attempted; on failure the process runs
`std::process::exit(0)`, on success (and when the corpus was already
non-empty) control proceeds to `fuzz_loop` (line 400). -/
def after_initial_load (corpusCount : Nat) (loadOk : Bool) : ProcessOutcome :=
  if corpusCount < 1 then
    if loadOk then .enterFuzzLoop else .exitWithCode 0
  else .enterFuzzLoop

/-! ## Mutator registration (fuzz, lines 368–382) -/

/-- The four distinct grimoire mutation operators registered at lines
373–379. -/
inductive GrimoireMutatorTag
  | extension
  | recursiveReplacement
  | stringReplacement
  | randomDelete
  deriving DecidableEq, Repr

/-- The operator tuple handed to the grimoire `StdScheduledMutator`
(lines 372–382): `GrimoireRandomDeleteMutator` is registered twice, the other
three operators once each. -/
def grimoire_mutations : List GrimoireMutatorTag :=
  [.extension, .recursiveReplacement, .stringReplacement,
   .randomDelete, .randomDelete]

/-- The `max_stack_pow` of the havoc `StdScheduledMutator`
(`with_max_stack_pow(havoc_mutations(), 2)`, line 371). -/
def havoc_max_stack_pow : Nat := 2

/-- The `max_stack_pow` of the grimoire `StdScheduledMutator` (line 381). -/
def grimoire_max_stack_pow : Nat := 3

/-- Probability that one uniform draw over the registered grimoire operator
tuple selects the given operator: its multiplicity over the tuple length. -/
def selection_probability (t : GrimoireMutatorTag) : ℚ :=
  (grimoire_mutations.count t : ℚ) / (grimoire_mutations.length : ℚ)

/-! ## Feedback engine (fuzz, lines 247–252)

The `feedback_or!` composition is in the source; the semantics of
`MaxMapFeedback` and `TimeFeedback` live in the external `libafl` crate and
are modelled from the specification. -/

/-- Modelled from the spec: `MaxMapFeedback` novelty test — missing library
code; "a new execution is interesting iff it sets at least one
previously-unset bit".  `cumulative` and `observed` are the fixed-size
coverage bitmaps. -/
def max_map_is_interesting (cumulative observed : List Bool) : Bool :=
  (List.zip observed cumulative).any fun p => p.1 && !p.2

/-- Modelled from the spec: `MaxMapFeedback` state update — missing library
code; "union the bit into cumulative state. Maximization, not replacement:
a bit, once set, is never cleared". -/
def max_map_update (cumulative observed : List Bool) : List Bool :=
  List.zipWith (fun a b => a || b) cumulative observed

/-- Modelled from the spec: `TimeFeedback`'s interestingness vote — missing
library code; "it never independently forces interesting". -/
def time_feedback_is_interesting (_elapsedMs : Nat) : Bool := false

/-- The `feedback_or!` combination built at lines 247–252: logical OR of the
coverage feedback's and the time feedback's votes. -/
def feedback_or_is_interesting (cumulative observed : List Bool)
    (elapsedMs : Nat) : Bool :=
  max_map_is_interesting cumulative observed ||
    time_feedback_is_interesting elapsedMs

/-- Cumulative coverage after a sequence of executions, each evaluated by the
coverage feedback in order. -/
def run_coverage_feedback (cumulative : List Bool)
    (observations : List (List Bool)) : List Bool :=
  observations.foldl max_map_update cumulative

/-! ## Stage pipeline (fuzz, lines 368–390) -/

/-- The five stages registered in the `stages` tuple, in declaration order
(lines 384–390). -/
inductive StageTag
  | generalization
  | tracing
  | i2s
  | havoc
  | grimoire
  deriving DecidableEq, Repr

/-- The `stages` tuple (lines 384–390): generalization, tracing, i2s, havoc
mutational stage, grimoire transforming mutational stage, in this order. -/
def stages : List StageTag :=
  [.generalization, .tracing, .i2s, .havoc, .grimoire]

/-- Events in the per-base-input pipeline trace: a stage produces its m-th
mutant, or the executor runs that mutant. -/
inductive Event
  | produce (s : StageTag) (m : Nat)
  | execute (s : StageTag) (m : Nat)
  deriving DecidableEq, Repr

/-- Modelled from the spec: one mutational stage's inner loop — missing
library code ( `StdMutationalStage::perform` ); "each mutant produced by a
stage is independently pushed through the Executor before the next mutant
runs". -/
def run_stage (s : StageTag) (mutants : Nat) : List Event :=
  (List.range mutants).flatMap fun m => [Event.produce s m, Event.execute s m]

/-- Modelled from the spec: the driver running the stage tuple on one
scheduler-selected base input — missing library code; stages run "in a fixed
declared order per scheduler-selected base input". `mutantsOf s` is the
number of mutants stage `s` elects to produce for this input. -/
def run_stages_on_input (mutantsOf : StageTag → Nat) : List Event :=
  stages.flatMap fun s => run_stage s (mutantsOf s)

/-! ## Queue scheduler (fuzz, lines 291–292)

`QueueScheduler` is library code; modelled from the spec's "base algorithm is
round-robin/queue order". -/

/-- Modelled from the spec: `QueueScheduler::next` — missing library code;
with `n` corpus entries and cursor `cur`, selects entry `cur % n` and
advances the cursor by one. -/
def queue_next (n cur : Nat) : Nat × Nat :=
  (cur % n, cur + 1)

/-- The selections made by `k` consecutive `next()` calls starting from
cursor `cur`, over a corpus of `n` entries. -/
def queue_selections (n cur : Nat) : Nat → List Nat
  | 0 => []
  | k + 1 =>
    let step := queue_next n cur
    step.1 :: queue_selections n step.2 k

/-! ## Theorems -/

/-- C2: the per-execution timeout defaults to 12000 ms when not configured
(`--timeout` default), and the executor wrapped by the comparison-tracing
stage is built with a timeout exactly 10 times the configured one. -/
theorem c2_timeout_default_and_tracing_multiplier :
    resolved_timeout_ms none = 12000 ∧
    default_timeout_ms = 12000 ∧
    (∀ t : Nat, tracing_timeout_ms (resolved_timeout_ms (some t)) = 10 * t) ∧
    (∀ t : Nat, tracing_timeout_ms t = 10 * t) := by
  refine ⟨rfl, rfl, ?_, ?_⟩ <;> intro t <;>
    simp [tracing_timeout_ms, resolved_timeout_ms, Nat.mul_comm]

/-- C1 counterexample: with an empty corpus and a failing initial-input load,
the process leaves via `std::process::exit(0)` — exit code 0, not a non-zero
code or an abort as the claim states. -/
theorem c1_counterexample_load_failure_exit_code_is_zero :
    after_initial_load 0 false = ProcessOutcome.exitWithCode 0 := rfl

/-- C1 (amended): if loading initial inputs from the seed directory fails,
the process exits without entering the fuzz loop, but with exit code 0
(`std::process::exit(0)` at line 363), so exit code 0 is not reserved for
graceful shutdown. -/
theorem c1_amended_load_failure_exits_without_loop (corpusCount : Nat)
    (h : corpusCount < 1) :
    after_initial_load corpusCount false = ProcessOutcome.exitWithCode 0 ∧
    after_initial_load corpusCount false ≠ ProcessOutcome.enterFuzzLoop := by
  interval_cases corpusCount
  exact ⟨rfl, by simp [after_initial_load]⟩

/-- Witness for C1 (amended) at the concrete empty corpus. -/
theorem c1_amended_load_failure_exits_without_loop_witness :
    after_initial_load 0 false = ProcessOutcome.exitWithCode 0 ∧
    after_initial_load 0 false ≠ ProcessOutcome.enterFuzzLoop :=
  c1_amended_load_failure_exits_without_loop 0 (by decide)

/-- C10: in testcase-replay mode, a single 0x00 byte is appended to a file's
bytes iff the last byte is non-zero; on empty file contents the
`bytes.last().unwrap()` panics (modelled as `none`), so replay is only safe
for non-empty files. -/
theorem c10_replay_appends_zero_iff_last_nonzero (bs : List Nat) (b : Nat)
    (h : bs.getLast? = some b) :
    (prepare_testcase bs = some (bs ++ [0]) ↔ b ≠ 0) ∧
    (prepare_testcase bs = some bs ↔ b = 0) ∧
    prepare_testcase [] = none := by
  have hne : bs ++ [0] ≠ bs := by
    intro heq
    have := congrArg List.length heq
    simp at this
  refine ⟨?_, ?_, rfl⟩ <;> rw [prepare_testcase, h] <;>
    by_cases hb : b = 0 <;> simp [hb, hne, Ne.symm hne]

/-- Witness for C10 at the concrete file contents `[1, 2]`. -/
theorem c10_replay_appends_zero_iff_last_nonzero_witness :
    (prepare_testcase [1, 2] = some ([1, 2] ++ [0]) ↔ (2 : Nat) ≠ 0) ∧
    (prepare_testcase [1, 2] = some [1, 2] ↔ (2 : Nat) = 0) ∧
    prepare_testcase [] = none :=
  c10_replay_appends_zero_iff_last_nonzero [1, 2] 2 (by simp)

/-- C9: whenever the target returns normally, both the fuzzing harness and
the tracing harness report `ExitKind::Ok`; neither harness ever produces a
`Crashed` exit kind in-line (a fault kills the process instead). -/
theorem c9_harness_ok_never_crash (target : List Nat → TargetOutcome)
    (input : List Nat) :
    (harness target input = some ExitKind.Ok ↔
      target input = TargetOutcome.Returns) ∧
    (tracing_harness target input = some ExitKind.Ok ↔
      target input = TargetOutcome.Returns) ∧
    harness target input ≠ some ExitKind.Crash ∧
    tracing_harness target input ≠ some ExitKind.Crash := by
  cases h : target input <;> simp [harness, tracing_harness, h]

/-- Witness for C9 at a concrete normally-returning target and input. -/
theorem c9_harness_ok_never_crash_witness :
    harness (fun _ => TargetOutcome.Returns) [7] = some ExitKind.Ok ∧
    tracing_harness (fun _ => TargetOutcome.Returns) [7] = some ExitKind.Ok ∧
    harness (fun _ => TargetOutcome.Returns) [7] ≠ some ExitKind.Crash :=
  have h := c9_harness_ok_never_crash (fun _ => TargetOutcome.Returns) [7]
  ⟨h.1.mpr rfl, h.2.1.mpr rfl, h.2.2.1⟩

/-- C7: the child enters the loop with a fresh state (time-seeded RNG, empty
working and objective corpora) iff the launch produced no snapshot; a present
snapshot is used unmodified, and `Error::ShuttingDown` yields a clean
return. -/
theorem c7_fresh_state_iff_no_snapshot (now : Nat) :
    fuzz_setup now (LaunchOutcome.ok none) =
      SetupResult.enterLoop (fresh_state now) ∧
    fresh_state now = ⟨now, [], []⟩ ∧
    (∀ st : FuzzState,
      fuzz_setup now (LaunchOutcome.ok (some st)) = SetupResult.enterLoop st) ∧
    fuzz_setup now LaunchOutcome.shuttingDown = SetupResult.cleanReturn ∧
    (∀ snap : Option FuzzState, ∀ st : FuzzState,
      fuzz_setup now (LaunchOutcome.ok snap) = SetupResult.enterLoop st →
        st = snap.getD (fresh_state now)) := by
  refine ⟨rfl, rfl, fun st => rfl, rfl, fun snap st h => ?_⟩
  cases snap <;> simpa [fuzz_setup] using h.symm

/-- Witness for C7 at a concrete launch time and snapshot. -/
theorem c7_fresh_state_iff_no_snapshot_witness :
    fuzz_setup 42 (LaunchOutcome.ok none) =
      SetupResult.enterLoop (fresh_state 42) ∧
    (⟨1, [], []⟩ : FuzzState) = (some (⟨1, [], []⟩ : FuzzState)).getD
      (fresh_state 42) :=
  ⟨(c7_fresh_state_iff_no_snapshot 42).1,
   (c7_fresh_state_iff_no_snapshot 42).2.2.2.2 (some ⟨1, [], []⟩) ⟨1, [], []⟩
     rfl⟩

/-- C6: among the five registered grimoire operators the random-delete
mutator appears twice and each other operator once, so a uniform draw picks
random delete with strictly greater probability; and the grimoire stack-pow
cap (3) strictly exceeds havoc's (2). -/
theorem c6_random_delete_weighted_and_stack_pows (t : GrimoireMutatorTag)
    (h : t ≠ GrimoireMutatorTag.randomDelete) :
    grimoire_mutations.count GrimoireMutatorTag.randomDelete = 2 ∧
    grimoire_mutations.count t = 1 ∧
    grimoire_mutations.length = 5 ∧
    selection_probability t <
      selection_probability GrimoireMutatorTag.randomDelete ∧
    havoc_max_stack_pow < grimoire_max_stack_pow := by
  have hcount : grimoire_mutations.count t = 1 := by
    cases t <;> simp_all <;> decide
  refine ⟨by decide, hcount, by decide, ?_, by decide⟩
  have h2 : grimoire_mutations.count GrimoireMutatorTag.randomDelete = 2 := by
    decide
  rw [selection_probability, selection_probability, hcount, h2]
  norm_num [grimoire_mutations]

/-- Witness for C6 at the concrete extension operator. -/
theorem c6_random_delete_weighted_and_stack_pows_witness :
    grimoire_mutations.count GrimoireMutatorTag.randomDelete = 2 ∧
    grimoire_mutations.count GrimoireMutatorTag.extension = 1 ∧
    grimoire_mutations.length = 5 ∧
    selection_probability GrimoireMutatorTag.extension <
      selection_probability GrimoireMutatorTag.randomDelete ∧
    havoc_max_stack_pow < grimoire_max_stack_pow :=
  c6_random_delete_weighted_and_stack_pows GrimoireMutatorTag.extension
    (by decide)

/-- The coverage novelty test fires exactly when some index (examined by both
maps) carries an observed bit that the cumulative map does not yet hold. -/
theorem max_map_is_interesting_iff (cumulative observed : List Bool) :
    max_map_is_interesting cumulative observed = true ↔
      ∃ i, i < observed.length ∧ i < cumulative.length ∧
        observed.getD i false = true ∧ cumulative.getD i false = false := by
  induction observed generalizing cumulative with
  | nil => simp [max_map_is_interesting]
  | cons o os ih =>
    cases cumulative with
    | nil => simp [max_map_is_interesting]
    | cons c cs =>
      rw [max_map_is_interesting, List.zip_cons_cons, List.any_cons]
      rw [show (List.zip os cs).any (fun p => p.1 && !p.2) =
        max_map_is_interesting cs os from rfl]
      simp only [Bool.or_eq_true, Bool.and_eq_true, Bool.not_eq_true', ih cs]
      constructor
      · rintro (⟨h1, h2⟩ | ⟨i, h1, h2, h3, h4⟩)
        · exact ⟨0, by simp, by simp, by simpa using h1, by simpa using h2⟩
        · exact ⟨i + 1, by simpa using h1, by simpa using h2,
            by simpa using h3, by simpa using h4⟩
      · rintro ⟨i, h1, h2, h3, h4⟩
        cases i with
        | zero => exact Or.inl ⟨by simpa using h3, by simpa using h4⟩
        | succ i =>
          exact Or.inr ⟨i, by simpa using h1, by simpa using h2,
            by simpa using h3, by simpa using h4⟩

/-- C3: the OR-combined feedback judges an execution interesting iff the
coverage feedback sees a previously-unseen bit or the time feedback votes
interesting; the time feedback never votes interesting, so with these two
feedbacks, interesting is equivalent to coverage novelty. -/
theorem c3_interesting_iff_coverage_novelty (cumulative observed : List Bool)
    (elapsedMs : Nat) :
    feedback_or_is_interesting cumulative observed elapsedMs =
      (max_map_is_interesting cumulative observed ||
        time_feedback_is_interesting elapsedMs) ∧
    time_feedback_is_interesting elapsedMs = false ∧
    (feedback_or_is_interesting cumulative observed elapsedMs = true ↔
      max_map_is_interesting cumulative observed = true) ∧
    (feedback_or_is_interesting cumulative observed elapsedMs = true ↔
      ∃ i, i < observed.length ∧ i < cumulative.length ∧
        observed.getD i false = true ∧ cumulative.getD i false = false) := by
  have hor : feedback_or_is_interesting cumulative observed elapsedMs = true ↔
      max_map_is_interesting cumulative observed = true := by
    simp [feedback_or_is_interesting, time_feedback_is_interesting]
  exact ⟨rfl, rfl, hor, hor.trans (max_map_is_interesting_iff _ _)⟩

/-- A coverage update keeps the map length when the observation matches it. -/
theorem max_map_update_length (cumulative observed : List Bool)
    (h : observed.length = cumulative.length) :
    (max_map_update cumulative observed).length = cumulative.length := by
  simp [max_map_update, h]

/-- A coverage update ORs the observed map into the cumulative map
pointwise (when the observation has the map's fixed length). -/
theorem max_map_update_getD (cumulative observed : List Bool) (i : Nat)
    (h : observed.length = cumulative.length) :
    (max_map_update cumulative observed).getD i false =
      (cumulative.getD i false || observed.getD i false) := by
  induction cumulative generalizing observed i with
  | nil =>
    cases observed with
    | nil => simp [max_map_update]
    | cons o os => simp at h
  | cons c cs ih =>
    cases observed with
    | nil => simp at h
    | cons o os =>
      cases i with
      | zero => simp [max_map_update]
      | succ i =>
        have hlen : os.length = cs.length := by simpa using h
        simpa [max_map_update] using ih os i hlen

/-- C4: the cumulative coverage bitmap is monotone — over any sequence of
executions whose observations have the map's fixed length, a bit once set in
the cumulative map is never cleared by later evaluations. -/
theorem c4_cumulative_coverage_monotone (cumulative : List Bool)
    (observations : List (List Bool)) (i : Nat)
    (hlen : ∀ o ∈ observations, o.length = cumulative.length)
    (h : cumulative.getD i false = true) :
    (run_coverage_feedback cumulative observations).getD i false = true := by
  induction observations generalizing cumulative with
  | nil => simpa [run_coverage_feedback] using h
  | cons o os ih =>
    have ho : o.length = cumulative.length := hlen o (by simp)
    have hstep : (max_map_update cumulative o).getD i false = true := by
      rw [max_map_update_getD _ _ _ ho, h, Bool.true_or]
    have hlen' : ∀ p ∈ os, p.length = (max_map_update cumulative o).length := by
      intro p hp
      rw [max_map_update_length _ _ ho]
      exact hlen p (by simp [hp])
    simpa [run_coverage_feedback, List.foldl_cons] using
      ih (max_map_update cumulative o) hlen' hstep

/-- Witness for C4 at a concrete map and observation sequence. -/
theorem c4_cumulative_coverage_monotone_witness :
    (run_coverage_feedback [true, false]
      [[false, true], [true, false]]).getD 0 false = true :=
  c4_cumulative_coverage_monotone [true, false] [[false, true], [true, false]]
    0 (by decide) (by decide)

/-- C5: the stage tuple runs in its declared order — generalization, then
tracing, then input-to-state, then havoc, then grimoire — the whole event
block of a stage preceding the next stage's, and within a stage each mutant
is executed immediately after it is produced, before the next mutant. -/
theorem c5_stage_order_and_sequencing (mutantsOf : StageTag → Nat) :
    stages = [StageTag.generalization, StageTag.tracing, StageTag.i2s,
      StageTag.havoc, StageTag.grimoire] ∧
    run_stages_on_input mutantsOf =
      run_stage StageTag.generalization (mutantsOf StageTag.generalization) ++
      (run_stage StageTag.tracing (mutantsOf StageTag.tracing) ++
      (run_stage StageTag.i2s (mutantsOf StageTag.i2s) ++
      (run_stage StageTag.havoc (mutantsOf StageTag.havoc) ++
      run_stage StageTag.grimoire (mutantsOf StageTag.grimoire)))) ∧
    (∀ s : StageTag, ∀ n : Nat, run_stage s (n + 1) =
      run_stage s n ++ [Event.produce s n, Event.execute s n]) := by
  refine ⟨rfl, ?_, ?_⟩
  · simp [run_stages_on_input, stages]
  · intro s n
    rw [run_stage, run_stage, List.range_succ, List.flatMap_append]
    simp

/-- The selections of `k` consecutive queue `next()` calls are the cursor
residues `cur % n, (cur + 1) % n, …` in order. -/
theorem queue_selections_eq (n cur k : Nat) :
    queue_selections n cur k = (List.range k).map fun j => (cur + j) % n := by
  induction k generalizing cur with
  | zero => rfl
  | succ k ih =>
    rw [queue_selections, List.range_succ_eq_map, List.map_cons]
    simp only [queue_next]
    rw [ih (cur + 1), List.map_map]
    refine congrArg₂ List.cons (by simp) ?_
    congr 1
    funext j
    simp only [Function.comp]
    congr 1
    omega

/-- C8: round-robin fairness of the queue scheduler — over a corpus of `n`
entries, any `n` consecutive `next()` calls (from an arbitrary cursor) select
every entry at least once. -/
theorem c8_queue_round_robin_fairness (n cur i : Nat) (hn : 0 < n)
    (hi : i < n) : i ∈ queue_selections n cur n := by
  rw [queue_selections_eq, List.mem_map]
  have hc : cur % n < n := Nat.mod_lt _ hn
  refine ⟨(i + n - cur % n) % n, List.mem_range.mpr (Nat.mod_lt _ hn), ?_⟩
  rw [Nat.add_mod_mod]
  have h2 : cur + (i + n - cur % n) = n * (cur / n) + (i + n) := by
    have hd := Nat.div_add_mod cur n
    omega
  rw [h2, Nat.mul_add_mod, Nat.add_mod_right]
  exact Nat.mod_eq_of_lt hi

/-- Witness for C8 at a concrete corpus size, cursor and entry. -/
theorem c8_queue_round_robin_fairness_witness :
    2 ∈ queue_selections 3 5 3 :=
  c8_queue_round_robin_fairness 3 5 2 (by decide) (by decide)

end Grimoire
